import Mathlib

/-!
Shallow embedding of the YouTube-downloader workflow (`main.py`):
the JSON-backed ledger of completed downloads (`load_videos_info` /
`save_video_info`), the in-memory progress table and its hook
(`progress_hook`), format filtering and ranking (`get_video_formats`),
the error-classification branch of `download_video`, and the two HTTP
handlers (`get_formats`, `download`).  Machine-level concerns (actual
file I/O, the yt-dlp engine, the HTTP framework) are out of scope per
the spec; they are modelled as explicit state or parameters.
-/

namespace YoutubeApp

/-! ## Python string operations, modelled on `List Char` -/

/-- Python `sub in hay` (substring containment) on char lists. -/
def listContainsSub (needle : List Char) : List Char → Bool
  | [] => needle.isEmpty
  | c :: rest => needle.isPrefixOf (c :: rest) || listContainsSub needle rest

/-- Python `sub in hay` on strings. -/
def strContains (hay sub : String) : Bool :=
  listContainsSub sub.data hay.data

/-- Python `url.split("v=")[-1]`: the suffix after the last occurrence of
`"v="`.  Only used under a `"v=" in url` guard, mirroring the source. -/
def afterLastVEq : List Char → List Char
  | [] => []
  | 'v' :: '=' :: rest =>
      if listContainsSub ['v', '='] rest then afterLastVEq rest else rest
  | _ :: rest => afterLastVEq rest

/-- Python `s.split(sep)[-1]` for a one-char separator: the suffix after
the last occurrence of `sep` (the whole string when `sep` is absent). -/
def afterLastChar (sep : Char) (l : List Char) : List Char :=
  (l.reverse.takeWhile (fun c => c != sep)).reverse

/-- Python `s.split(sep)[0]` for a one-char separator: the prefix before
the first occurrence of `sep`. -/
def beforeFirstChar (sep : Char) (l : List Char) : List Char :=
  l.takeWhile (fun c => c != sep)

/-- Python `int(s)` on a decimal-digit string (the source only applies it
to well-formed digit strings; malformed labels, where Python would raise,
are out of the claims' scope and fall to an arbitrary value here). -/
def charsToNat (l : List Char) : ℕ :=
  l.foldl (fun acc c => acc * 10 + (c.toNat - 48)) 0

/-! ## VideoRecordStore (`VideoInfo`, `load_videos_info`, `save_video_info`)

The ledger file holds a JSON array of record objects.  The text layer
(`json.dumps` / `json.load`) is the external stdlib; the file content is
modelled at the parsed-JSON level, with a distinguished state for a file
whose text does not parse. -/

/-- The `VideoInfo` pydantic model (`main.py` lines 44-53). -/
structure VideoInfo where
  id : String
  title : String
  duration : ℤ
  author : String
  description : String
  file_size : String
  file_path : String
  thumbnail : String
  download_date : String
deriving DecidableEq

/-- Parsed JSON values. -/
inductive JVal where
  | jnull : JVal
  | jbool : Bool → JVal
  | jnum : ℤ → JVal
  | jstr : String → JVal
  | jarr : List JVal → JVal
  | jobj : List (String × JVal) → JVal

/-- State of the ledger file: absent, present but textually unparsable,
or parsed JSON. -/
inductive FileContent where
  | missing : FileContent
  | unparsable : FileContent
  | json : JVal → FileContent

/-- Lookup of a key in a JSON object's field list. -/
def jLookup (k : String) : List (String × JVal) → Option JVal
  | [] => none
  | (k', v) :: rest => if k' = k then some v else jLookup k rest

/-- Extract a JSON string. -/
def asStr : JVal → Option String
  | .jstr s => some s
  | _ => none

/-- Extract a JSON integer. -/
def asInt : JVal → Option ℤ
  | .jnum n => some n
  | _ => none

/-- `model_dump` of a `VideoInfo` (the dict written by `save_video_info`). -/
def encodeInfo (r : VideoInfo) : JVal :=
  .jobj [("id", .jstr r.id), ("title", .jstr r.title),
         ("duration", .jnum r.duration), ("author", .jstr r.author),
         ("description", .jstr r.description), ("file_size", .jstr r.file_size),
         ("file_path", .jstr r.file_path), ("thumbnail", .jstr r.thumbnail),
         ("download_date", .jstr r.download_date)]

/-- `VideoInfo(**item)`: pydantic validation of one JSON item; `none`
models the raised `ValidationError`. -/
def decodeInfo : JVal → Option VideoInfo
  | .jobj fs => do
      let id ← (jLookup "id" fs).bind asStr
      let title ← (jLookup "title" fs).bind asStr
      let duration ← (jLookup "duration" fs).bind asInt
      let author ← (jLookup "author" fs).bind asStr
      let description ← (jLookup "description" fs).bind asStr
      let file_size ← (jLookup "file_size" fs).bind asStr
      let file_path ← (jLookup "file_path" fs).bind asStr
      let thumbnail ← (jLookup "thumbnail" fs).bind asStr
      let download_date ← (jLookup "download_date" fs).bind asStr
      some ⟨id, title, duration, author, description, file_size, file_path,
            thumbnail, download_date⟩
  | _ => none

/-- `[VideoInfo(**item) for item in data]`: one failing item makes the
whole comprehension raise (caught by the caller). -/
def decodeList : List JVal → Option (List VideoInfo)
  | [] => some []
  | j :: rest =>
      match decodeInfo j, decodeList rest with
      | some v, some vs => some (v :: vs)
      | _, _ => none

/-- `load_videos_info` (`main.py` lines 56-65): `[]` when the file does
not exist; on any exception while reading/parsing/validating, logs and
returns `[]` (the logging side effect is not modelled). -/
def load_videos_info : FileContent → List VideoInfo
  | .missing => []
  | .unparsable => []
  | .json (.jarr items) => (decodeList items).getD []
  | .json _ => []

/-- The in-memory list update inside `save_video_info` (lines 71-72):
drop any record with the same id, then append the new record. -/
def upsertList (videos : List VideoInfo) (r : VideoInfo) : List VideoInfo :=
  videos.filter (fun v => v.id != r.id) ++ [r]

/-- `save_video_info` (`main.py` lines 68-75): load, remove same-id
records, append, rewrite the whole file as a JSON array. -/
def save_video_info (file : FileContent) (r : VideoInfo) : FileContent :=
  .json (.jarr ((upsertList (load_videos_info file) r).map encodeInfo))

/-! ## ProgressTable and `progress_hook` (`main.py` lines 37-38, 78-98)

`download_progress` is a process-wide dict keyed by video id; entries are
dicts with varying keys, modelled as a structure with optional fields.
Byte rates/percentages are modelled over `ℚ` (the spec keeps floating
point out of scope; Python's `round(x, 2)` half-to-even is modelled
exactly over the rationals). -/

/-- One entry of `download_progress`.  Keys absent from the Python dict
are `none`. -/
structure ProgressEntry where
  progress : ℚ
  status : String
  speed : Option ℚ
  eta : Option ℚ
  error : Option String
  original_error : Option String
deriving DecidableEq

/-- The `download_progress` dict. -/
def Table : Type := String → Option ProgressEntry

/-- `download_progress[id] = entry` (unconditional overwrite). -/
def set_entry (tbl : Table) (id : String) (e : ProgressEntry) : Table :=
  fun k => if k = id then some e else tbl k

/-- The empty progress table. -/
def empty_table : Table := fun _ => none

/-- One callback dict `d` from the engine, with the fields
`progress_hook` reads.  `info_id` models `d.get('info_dict', {}).get('id')`
(absent → the `'unknown'` default applies); `total_bytes` is optional
(`d.get('total_bytes')` with no default). -/
structure Tick where
  status : String
  info_id : Option String
  downloaded_bytes : ℕ
  total_bytes : Option ℕ
  total_bytes_estimate : ℕ
  speed : Option ℚ
  eta : Option ℚ

/-- `d.get('info_dict', {}).get('id', 'unknown')`. -/
def tick_id (d : Tick) : String := d.info_id.getD "unknown"

/-- `d.get('total_bytes') or d.get('total_bytes_estimate', 0)`: Python
`or` falls through on `None` and on `0`. -/
def eff_total (d : Tick) : ℕ :=
  if d.total_bytes.getD 0 != 0 then d.total_bytes.getD 0
  else d.total_bytes_estimate

/-- Round half to even to an integer (Python `round` tie behaviour). -/
def roundHE (q : ℚ) : ℤ :=
  if q - Int.floor q < 1 / 2 then Int.floor q
  else if (1 : ℚ) / 2 < q - Int.floor q then Int.floor q + 1
  else if Int.floor q % 2 = 0 then Int.floor q else Int.floor q + 1

/-- Python `round(x, 2)`. -/
def round2 (q : ℚ) : ℚ := (roundHE (q * 100) : ℚ) / 100

/-- `progress_hook` (`main.py` lines 78-98): on a `downloading` tick with
a known total, overwrite the entry with the rounded percentage; with no
known total, change nothing; on a `finished` tick, overwrite with
`{progress: 100, status: finished}`; other statuses change nothing. -/
def progress_hook (d : Tick) (tbl : Table) : Table :=
  if d.status = "downloading" then
    if eff_total d > 0 then
      set_entry tbl (tick_id d)
        ⟨round2 ((d.downloaded_bytes : ℚ) / (eff_total d : ℚ) * 100),
         "downloading", some (d.speed.getD 0), some (d.eta.getD 0),
         none, none⟩
    else tbl
  else if d.status = "finished" then
    set_entry tbl (tick_id d) ⟨100, "finished", none, none, none, none⟩
  else tbl

/-! ## Error classification in `download_video` (`main.py` lines 212-243) -/

/-- The user-facing message for the rate-limit (HTTP 429) category. -/
def msg429 : String := "YouTube 限制了请求速率，请稍后再试。"

/-- The `if/elif` classification chain over the raw error text
(`main.py` lines 217-236): ordered substring match, first match wins,
otherwise the raw text passes through verbatim. -/
def classify (raw : String) : String :=
  if strContains raw "HTTP Error 429" then msg429
  else if strContains raw "HTTP Error 403" then "无法访问此视频，可能是地区限制或需要登录。"
  else if strContains raw "HTTP Error 404" then "视频不存在或已被删除。"
  else if strContains raw "Unable to download API page" ||
          strContains raw.toLower "timed out" ||
          strContains raw "WinError 10060" then
    "网络连接超时，建议：\n1. 检查网络连接\n2. 尝试使用代理服务器\n3. 稍后重试"
  else if strContains raw "This video is unavailable" then "此视频不可用，可能已被设为私有或删除。"
  else if strContains raw "Video unavailable" then "视频不可用，可能已被上传者删除或设为私有。"
  else if strContains raw "Sign in" then "此视频需要登录才能观看。"
  else if strContains raw "The uploader has not made this video available" then
    "上传者未在您的国家/地区提供此视频。"
  else if strContains raw.toLower "socket" || strContains raw.toLower "network" then
    "网络连接不稳定，建议：\n1. 检查网络连接\n2. 尝试使用代理服务器\n3. 稍后重试"
  else if strContains raw "DNS" then
    "DNS解析失败，建议：\n1. 检查网络DNS设置\n2. 尝试使用其他DNS服务器\n3. 使用代理服务器"
  else raw

/-- The id used to key the error entry (`main.py` line 213):
`url.split("v=")[-1].split("&")[0] if "v=" in url else "unknown"`. -/
def worker_error_id (url : String) : String :=
  if strContains url "v=" then
    (beforeFirstChar '&' (afterLastVEq url.data)).asString
  else "unknown"

/-- Modelled from the spec's words (for comparison with
`worker_error_id`, which is the code's rule): the claim C6 / spec §4.4
extraction — `v=`-rule for `youtube.com` URLs, last-path-segment rule
for `youtu.be` URLs, `"unknown"` otherwise. -/
def spec_worker_error_id (url : String) : String :=
  if strContains url "youtube.com" then
    (beforeFirstChar '&' (afterLastVEq url.data)).asString
  else if strContains url "youtu.be" then
    (beforeFirstChar '?' (afterLastChar '/' url.data)).asString
  else "unknown"

/-- The `except` branch of `download_video` (`main.py` lines 212-243):
key the table by `worker_error_id`, store the classified message and the
raw text. -/
def handle_error (url raw : String) (tbl : Table) : Table :=
  set_entry tbl (worker_error_id url)
    ⟨0, "error", none, none, some (classify raw), some raw⟩

/-! ## FormatLister (`get_video_formats`, `main.py` lines 100-144) -/

/-- One raw format candidate from the engine's `info['formats']`, with
the keys `get_video_formats` reads; absent keys are `none`. -/
structure RawFormat where
  format_id : Option String
  resolution : Option String
  ext : Option String
  fps : Option ℚ
  filesize : Option ℕ
  format_note : Option String
  vcodec : Option String
deriving DecidableEq

/-- One produced format descriptor (the dict built at lines 119-127). -/
structure FormatInfo where
  format_id : Option String
  resolution : String
  ext : String
  fps : ℚ
  filesize : ℕ
  format_note : String
  vcodec : String
deriving DecidableEq

/-- The filter condition at line 118:
`f.get('vcodec') != 'none' and f.get('resolution') != 'audio only'`
(a missing key compares unequal to the literal, as in Python). -/
def keep_format (f : RawFormat) : Bool :=
  f.vcodec != some "none" && f.resolution != some "audio only"

/-- The descriptor dict built at lines 119-127 (with the `get` defaults
of the source). -/
def format_info (f : RawFormat) : FormatInfo :=
  ⟨f.format_id, f.resolution.getD "unknown", f.ext.getD "mp4",
   f.fps.getD 0, f.filesize.getD 0, f.format_note.getD "", f.vcodec.getD ""⟩

/-- The `for f in info.get('formats', [])` loop (lines 115-128): append
a descriptor for each candidate passing the filter, in order. -/
def extract_formats : List RawFormat → List FormatInfo
  | [] => []
  | f :: rest =>
      if keep_format f then format_info f :: extract_formats rest
      else extract_formats rest

/-- The sort key of lines 131-135: `0` for the sentinel `"unknown"`, the
integer after the first `'x'` for a `"WxH"` label, otherwise the integer
left of the trailing `'p'`s. -/
def sort_key (res : String) : ℕ :=
  if res = "unknown" then 0
  else if res.data.contains 'x' then
    charsToNat (beforeFirstChar 'x' ((res.data.dropWhile (fun c => c != 'x')).drop 1))
  else
    charsToNat ((res.data.reverse.dropWhile (fun c => c == 'p')).reverse)

/-- Ordering relation of the sort at lines 131-135: `a` may precede `b`
iff `a`'s key is at least `b`'s (descending). -/
def desc_by_key (a b : FormatInfo) : Prop :=
  sort_key b.resolution ≤ sort_key a.resolution

instance : DecidableRel desc_by_key := fun _ _ => Nat.decLe _ _

instance : IsTotal FormatInfo desc_by_key :=
  ⟨fun a b => Nat.le_total (sort_key b.resolution) (sort_key a.resolution)⟩

instance : IsTrans FormatInfo desc_by_key :=
  ⟨fun _ _ _ h1 h2 => Nat.le_trans h2 h1⟩

/-- `formats.sort(key=..., reverse=True)` (lines 130-135): Python's sort
is stable and `reverse=True` preserves the original order of equal keys,
so it is modelled by a stable descending insertion sort over the same
key — any two stable sorts by the same preorder agree. -/
def sort_formats (fs : List FormatInfo) : List FormatInfo :=
  List.insertionSort desc_by_key fs

/-! ## HTTP handlers (`get_formats` and `download`, `main.py` lines 256-296) -/

/-- The JSON body returned by the two handlers (absent keys are `none`). -/
structure ApiResponse where
  status : String
  message : String
  video_id : Option String
deriving DecidableEq

/-- The top-level dict returned by `get_video_formats` on success. -/
structure FormatsResult where
  id : String
  title : String
  formats : List FormatInfo
deriving DecidableEq

/-- The URL validation shared by both handlers (lines 259, 273):
`not url or not any(domain in url for domain in ['youtube.com', 'youtu.be'])`. -/
def url_invalid (url : String) : Bool :=
  url.isEmpty || !(strContains url "youtube.com" || strContains url "youtu.be")

/-- Result of `get_formats`: the response plus whether the extraction
engine was invoked. -/
structure FormatsOutcome where
  response : ApiResponse
  engine_called : Bool

/-- `get_formats` (`main.py` lines 256-268).  `eng` abstracts
`get_video_formats`'s engine call, already in its caught form: an
`{error: msg}` dict or the success payload. -/
def get_formats (eng : String → Except String FormatsResult) (url : String) :
    FormatsOutcome :=
  if url_invalid url then
    ⟨⟨"error", "请输入有效的YouTube视频链接", none⟩, false⟩
  else
    match eng url with
    | .error e => ⟨⟨"error", e, none⟩, true⟩
    | .ok _ => ⟨⟨"success", "", none⟩, true⟩

/-- The preliminary id extraction in `download` (lines 277-282). -/
def extract_request_id (url : String) : String :=
  if strContains url "youtube.com" && strContains url "v=" then
    (beforeFirstChar '&' (afterLastVEq url.data)).asString
  else if strContains url "youtu.be" then
    (beforeFirstChar '?' (afterLastChar '/' url.data)).asString
  else "unknown"

/-- Result of the `download` handler: response, resulting progress
table, and the background tasks enqueued (as `(url, format_id)`). -/
structure DownloadOutcome where
  response : ApiResponse
  table : Table
  tasks : List (String × Option String)

/-- `download` (`main.py` lines 270-296): validate the domain, extract a
preliminary id, reject the `"unknown"` sentinel, else record a `queued`
entry and enqueue the background download. -/
def download (url : String) (format_id : Option String) (tbl : Table) :
    DownloadOutcome :=
  if url_invalid url then
    ⟨⟨"error", "请输入有效的YouTube视频链接", none⟩, tbl, []⟩
  else
    let vid := extract_request_id url
    if vid = "unknown" then
      ⟨⟨"error", "无法识别视频ID，请检查链接格式", none⟩, tbl, []⟩
    else
      ⟨⟨"success", "Download started", some vid⟩,
       set_entry tbl vid ⟨0, "queued", none, none, none, none⟩,
       [(url, format_id)]⟩

/-! ## Store lemmas -/

/-- Pydantic validation inverts `model_dump`. -/
theorem decodeInfo_encodeInfo (r : VideoInfo) : decodeInfo (encodeInfo r) = some r := rfl

/-- Decoding a dumped record list recovers the list. -/
theorem decodeList_map_encode (l : List VideoInfo) :
    decodeList (l.map encodeInfo) = some l := by
  induction l with
  | nil => rfl
  | cons r rest ih => simp [decodeList, decodeInfo_encodeInfo, ih]

/-- Reading back a file that holds a dumped record list yields the list. -/
theorem load_json_map (l : List VideoInfo) :
    load_videos_info (.json (.jarr (l.map encodeInfo))) = l := by
  simp [load_videos_info, decodeList_map_encode]

/-- `load_videos_info` after `save_video_info` sees exactly the upserted
record list. -/
theorem load_save (file : FileContent) (r : VideoInfo) :
    load_videos_info (save_video_info file r) =
      upsertList (load_videos_info file) r := by
  simp [save_video_info, load_json_map]

/-- After an upsert, the records with the upserted id are exactly the
new record. -/
theorem upsertList_filter_eq (l : List VideoInfo) (r : VideoInfo) :
    (upsertList l r).filter (fun v => v.id == r.id) = [r] := by
  simp [upsertList, List.filter_append, List.filter_filter]

/-- Upserting the same record twice leaves the record list unchanged. -/
theorem upsertList_idem (l : List VideoInfo) (r : VideoInfo) :
    upsertList (upsertList l r) r = upsertList l r := by
  simp [upsertList, List.filter_append, List.filter_filter]

/-! ## String lemmas -/

/-- A haystack with an embedded `"v="` contains `"v="`. -/
theorem listContainsSub_append_vEq (a b : List Char) :
    listContainsSub ['v', '='] (a ++ 'v' :: '=' :: b) = true := by
  induction a with
  | nil => simp [listContainsSub, List.isPrefixOf]
  | cons c a ih => simp [listContainsSub, ih]

/-- `afterLastVEq` skips a head char other than `'v'`. -/
theorem afterLastVEq_cons_ne (c : Char) (l : List Char) (h : ¬(c = 'v')) :
    afterLastVEq (c :: l) = afterLastVEq l := by
  rw [afterLastVEq.eq_def]
  split
  next heq => cases heq
  next rest heq => injection heq with h1 _; exact absurd h1 h
  next a hd rest hno heq => injection heq with _ h2; rw [h2]

/-- `afterLastVEq` skips a `'v'` not followed by `'='`. -/
theorem afterLastVEq_cons_v_ne (c2 : Char) (l : List Char) (h : ¬(c2 = '=')) :
    afterLastVEq ('v' :: c2 :: l) = afterLastVEq (c2 :: l) := by
  rw [afterLastVEq.eq_def]
  split
  next heq => cases heq
  next rest heq =>
    injection heq with _ h2
    injection h2 with h3 _
    exact absurd h3 h
  next a hd rest hno heq => injection heq with _ h2; rw [← h2]

/-- `afterLastVEq` at a final occurrence of `"v="` yields the tail. -/
theorem afterLastVEq_base (b : List Char)
    (hb : listContainsSub ['v', '='] b = false) :
    afterLastVEq ('v' :: '=' :: b) = b := by
  simp [afterLastVEq, hb]

/-- The suffix after the last `"v="`: splitting the haystack at an
occurrence of `"v="` that is not followed by another one yields the part
after it. -/
theorem afterLastVEq_append (a b : List Char)
    (hb : listContainsSub ['v', '='] b = false) :
    afterLastVEq (a ++ 'v' :: '=' :: b) = b := by
  have H : ∀ (n : ℕ) (a : List Char), a.length ≤ n →
      afterLastVEq (a ++ 'v' :: '=' :: b) = b := by
    intro n
    induction n with
    | zero =>
        intro a ha
        have ha0 : a = [] := List.eq_nil_of_length_eq_zero (Nat.le_zero.mp ha)
        subst ha0
        simpa using afterLastVEq_base b hb
    | succ n ihn =>
        intro a ha
        cases a with
        | nil => simpa using afterLastVEq_base b hb
        | cons c a' =>
          by_cases hcv : c = 'v'
          · subst hcv
            cases a' with
            | nil =>
                rw [List.singleton_append,
                    afterLastVEq_cons_v_ne 'v' ('=' :: b) (by decide)]
                exact afterLastVEq_base b hb
            | cons c2 a'' =>
              by_cases hc2 : c2 = '='
              · subst hc2
                have hc := listContainsSub_append_vEq a'' b
                have hstep : afterLastVEq ('v' :: '=' :: (a'' ++ 'v' :: '=' :: b)) =
                    afterLastVEq (a'' ++ 'v' :: '=' :: b) := by
                  simp [afterLastVEq, hc]
                rw [List.cons_append, List.cons_append, hstep]
                exact ihn a'' (by simp at ha; omega)
              · rw [List.cons_append, List.cons_append,
                    afterLastVEq_cons_v_ne c2 _ hc2, ← List.cons_append]
                exact ihn (c2 :: a'') (by simp at ha ⊢; omega)
          · rw [List.cons_append, afterLastVEq_cons_ne c _ hcv]
            exact ihn a' (by simp at ha; omega)
  exact H a.length a le_rfl

/-- `String.append` concatenates the underlying char lists. -/
theorem str_data_append (s t : String) : (s ++ t).data = s.data ++ t.data := rfl

/-- Concrete ticks for the progress-update scenario of the spec:
`(downloaded=50, total=100)` then `(downloaded=100, total=100)`. -/
def tick50 : Tick := ⟨"downloading", some "vid", 50, some 100, 0, none, none⟩

/-- Second tick of the scenario. -/
def tick100 : Tick := ⟨"downloading", some "vid", 100, some 100, 0, none, none⟩

/-! ## Sorting lemmas -/

/-- Inserting an element that satisfies `p`, when everything it may not
precede fails `p`: it lands in front of every `p`-element. -/
theorem filter_orderedInsert_pos (p : FormatInfo → Bool) (x : FormatInfo)
    (hx : p x = true) (hcut : ∀ y, ¬ desc_by_key x y → p y = false) :
    ∀ m, (List.orderedInsert desc_by_key x m).filter p = x :: m.filter p := by
  intro m
  induction m with
  | nil => simp [hx]
  | cons y m ih =>
    by_cases hr : desc_by_key x y
    · simp [List.orderedInsert, hr, hx]
    · have hy : p y = false := hcut y hr
      simp [List.orderedInsert, hr, hy, ih]

/-- Inserting an element that fails `p` does not change the `p`-filtered
list. -/
theorem filter_orderedInsert_neg (p : FormatInfo → Bool) (x : FormatInfo)
    (hx : p x = false) :
    ∀ m, (List.orderedInsert desc_by_key x m).filter p = m.filter p := by
  intro m
  induction m with
  | nil => simp [hx]
  | cons y m ih =>
    by_cases hr : desc_by_key x y
    · simp [List.orderedInsert, hr, hx]
    · simp [List.orderedInsert, List.filter_cons, hr, ih]

/-- Stability of the ranking: formats sharing one sort key keep their
original relative order. -/
theorem filter_sort_formats (k : ℕ) (fs : List FormatInfo) :
    (sort_formats fs).filter (fun f => sort_key f.resolution == k) =
      fs.filter (fun f => sort_key f.resolution == k) := by
  induction fs with
  | nil => rfl
  | cons x fs ih =>
    show (List.orderedInsert desc_by_key x (sort_formats fs)).filter _ = _
    by_cases hx : sort_key x.resolution = k
    · rw [filter_orderedInsert_pos _ x (by simp [hx])
        (fun y hy => by
          have hlt : sort_key x.resolution < sort_key y.resolution :=
            Nat.lt_of_not_le hy
          simp only [beq_eq_false_iff_ne]
          omega),
        ih, List.filter_cons]
      simp [hx]
    · rw [filter_orderedInsert_neg _ x (by simp [hx]), ih, List.filter_cons]
      simp [hx]

/-- The spec's ranking example: a 1080-height `"WxH"` format. -/
def fmt1080 : FormatInfo := ⟨some "137", "1920x1080", "mp4", 0, 0, "", "avc1"⟩

/-- The spec's ranking example: a `"720p"` format. -/
def fmt720 : FormatInfo := ⟨some "136", "720p", "mp4", 0, 0, "", "avc1"⟩

/-- The spec's ranking example: an `"unknown"`-resolution format. -/
def fmtUnknown : FormatInfo := ⟨some "135", "unknown", "mp4", 0, 0, "", "avc1"⟩

/-- The spec's ranking example: a `"480p"` format. -/
def fmt480 : FormatInfo := ⟨some "134", "480p", "mp4", 0, 0, "", "avc1"⟩

/-- A raw candidate used as a concrete filter witness. -/
def rawEx : RawFormat :=
  ⟨some "137", some "1920x1080", some "mp4", none, none, none, some "avc1"⟩

/-! ## Claims -/

/-- C4: the ranking sorts descending by the derived vertical-resolution
key — height `H` of a `"WxH"` label, `N` of an `"Np"` label, `0` for the
sentinel `"unknown"` (hence last) — stably (equal keys keep their input
order), and on the spec's example inputs produces the order
1080, 720, 480, unknown. -/
theorem format_ranking_desc :
    sort_formats [fmt1080, fmt720, fmtUnknown, fmt480] =
      [fmt1080, fmt720, fmt480, fmtUnknown]
    ∧ (∀ fs : List FormatInfo, (sort_formats fs).Perm fs)
    ∧ (∀ fs : List FormatInfo, List.Sorted desc_by_key (sort_formats fs))
    ∧ (∀ (k : ℕ) (fs : List FormatInfo),
        (sort_formats fs).filter (fun f => sort_key f.resolution == k) =
          fs.filter (fun f => sort_key f.resolution == k))
    ∧ sort_key "unknown" = 0 ∧ sort_key "1920x1080" = 1080
    ∧ sort_key "720p" = 720 ∧ sort_key "480p" = 480 :=
  ⟨by decide,
   fun fs => List.perm_insertionSort desc_by_key fs,
   fun fs => List.sorted_insertionSort desc_by_key fs,
   filter_sort_formats,
   by decide, by decide, by decide, by decide⟩

/-- C9: the filter keeps exactly the candidates whose video codec is not
the sentinel `"none"` and whose resolution label is not the literal
`"audio only"`, and consequently no listed descriptor carries the
`"audio only"` label. -/
theorem format_filter_video_only :
    (∀ raws, extract_formats raws = (raws.filter keep_format).map format_info)
    ∧ (∀ f : RawFormat, keep_format f = true ↔
        (f.vcodec ≠ some "none" ∧ f.resolution ≠ some "audio only"))
    ∧ (∀ raws d, d ∈ extract_formats raws → d.resolution ≠ "audio only") := by
  have h1 : ∀ raws, extract_formats raws = (raws.filter keep_format).map format_info := by
    intro raws
    induction raws with
    | nil => rfl
    | cons f rest ih =>
      by_cases hk : keep_format f = true
      · simp [extract_formats, List.filter_cons, hk, ih]
      · simp at hk
        simp [extract_formats, List.filter_cons, hk, ih]
  refine ⟨h1, ?_, ?_⟩
  · intro f
    simp [keep_format]
  · intro raws d hd
    rw [h1] at hd
    simp only [List.mem_map, List.mem_filter] at hd
    obtain ⟨f, ⟨hmem, hkeep⟩, rfl⟩ := hd
    have hres : f.resolution ≠ some "audio only" := by
      simp [keep_format] at hkeep
      exact hkeep.2
    cases hfr : f.resolution with
    | none => simp [format_info, hfr]
    | some s =>
      simp [format_info, hfr]
      rw [hfr] at hres
      intro hcontra
      exact hres (by rw [hcontra])

/-- Witness for C9: a video-carrying candidate survives the filter and
its descriptor is not labelled `"audio only"`. -/
theorem format_filter_video_only_witness :
    format_info rawEx ∈ extract_formats [rawEx]
    ∧ (format_info rawEx).resolution ≠ "audio only" :=
  ⟨by decide,
   format_filter_video_only.2.2 [rawEx] (format_info rawEx) (by decide)⟩

/-- C1: after `save_video_info r` the store holds exactly one record
with `r.id` — namely `r` itself, wholesale (last-write-wins) — and
upserting the identical record again produces the identical file. -/
theorem upsert_last_write_wins (file : FileContent) (r : VideoInfo) :
    (load_videos_info (save_video_info file r)).filter (fun v => v.id == r.id) = [r]
    ∧ save_video_info (save_video_info file r) r = save_video_info file r := by
  constructor
  · rw [load_save]; exact upsertList_filter_eq _ _
  · simp only [save_video_info]
    rw [load_json_map, upsertList_idem]

/-- C2: round-trip — for every record `r` and every prior file state,
`load_videos_info` after `save_video_info r` returns a list containing
`r` field-for-field. -/
theorem upsert_roundtrip (file : FileContent) (r : VideoInfo) :
    r ∈ load_videos_info (save_video_info file r) := by
  rw [load_save]; simp [upsertList]

/-- C8: `load_videos_info` is a total function that returns `[]` when
the file is missing, `[]` when its text does not parse, `[]` when the
parsed JSON is not an array, and `[]` when any array item fails record
validation — it never propagates a failure. -/
theorem loadAll_total_on_failure :
    load_videos_info .missing = []
    ∧ load_videos_info .unparsable = []
    ∧ (∀ items, decodeList items = none →
        load_videos_info (.json (.jarr items)) = [])
    ∧ (∀ j : JVal, (∀ items, j ≠ JVal.jarr items) →
        load_videos_info (.json j) = []) := by
  refine ⟨rfl, rfl, ?_, ?_⟩
  · intro items h
    simp [load_videos_info, h]
  · intro j h
    cases j with
    | jarr items => exact absurd rfl (h items)
    | _ => rfl

/-- Witness for C8 at concrete failing inputs: a JSON array holding a
null (record validation fails) and a non-array JSON file both load as
the empty list. -/
theorem loadAll_total_on_failure_witness :
    load_videos_info (.json (.jarr [JVal.jnull])) = []
    ∧ load_videos_info (.json JVal.jnull) = [] :=
  ⟨loadAll_total_on_failure.2.2.1 [JVal.jnull] rfl,
   loadAll_total_on_failure.2.2.2 JVal.jnull (fun _ h => by cases h)⟩

/-- C3: error classification is first-match-wins on the raw text — any
raw error containing `"HTTP Error 429"` anywhere classifies to the
rate-limit message regardless of surrounding text (in particular when
`"DNS"` also occurs), and the error entry written to the progress table
is `{progress: 0, status: error, error: mapped, original_error: raw}`. -/
theorem classify_429_first (url raw : String) (tbl : Table)
    (h : strContains raw "HTTP Error 429" = true) :
    classify raw = msg429
    ∧ (handle_error url raw tbl) (worker_error_id url) =
        some ⟨0, "error", none, none, some msg429, some raw⟩ := by
  have hc : classify raw = msg429 := by simp [classify, h]
  exact ⟨hc, by simp [handle_error, set_entry, hc]⟩

/-- Witness for C3: a raw error containing both `"HTTP Error 429"` and
`"DNS"` resolves to the 429 category, and the table entry carries the
mapped and the raw message. -/
theorem classify_429_first_witness :
    strContains "HTTP Error 429 while resolving DNS" "HTTP Error 429" = true
    ∧ classify "HTTP Error 429 while resolving DNS" = msg429
    ∧ (handle_error "https://www.youtube.com/watch?v=abc"
        "HTTP Error 429 while resolving DNS" empty_table)
        (worker_error_id "https://www.youtube.com/watch?v=abc") =
        some ⟨0, "error", none, none, some msg429,
              some "HTTP Error 429 while resolving DNS"⟩ :=
  ⟨by decide,
   (classify_429_first "https://www.youtube.com/watch?v=abc" _ empty_table (by decide)).1,
   (classify_429_first "https://www.youtube.com/watch?v=abc" _ empty_table (by decide)).2⟩

/-- C5: on a `downloading` tick with a known total the hook overwrites
the entry with the 2-decimal-rounded percentage, speed, and eta; with no
known total it leaves the table untouched; on a `finished` tick it
overwrites with `{progress: 100, status: finished}`; and the concrete
scenario of ticks `(50, 100)` then `(100, 100)` reads back progress `50`
then `100`. -/
theorem progress_hook_updates :
    (∀ (d : Tick) (tbl : Table), d.status = "downloading" → eff_total d ≠ 0 →
      progress_hook d tbl = set_entry tbl (tick_id d)
        ⟨round2 ((d.downloaded_bytes : ℚ) / (eff_total d : ℚ) * 100),
         "downloading", some (d.speed.getD 0), some (d.eta.getD 0), none, none⟩)
    ∧ (∀ (d : Tick) (tbl : Table), d.status = "downloading" → eff_total d = 0 →
      progress_hook d tbl = tbl)
    ∧ (∀ (d : Tick) (tbl : Table), d.status = "finished" →
      progress_hook d tbl =
        set_entry tbl (tick_id d) ⟨100, "finished", none, none, none, none⟩)
    ∧ (∀ tbl : Table,
      progress_hook tick50 tbl "vid" =
        some ⟨50, "downloading", some 0, some 0, none, none⟩
      ∧ progress_hook tick100 (progress_hook tick50 tbl) "vid" =
        some ⟨100, "downloading", some 0, some 0, none, none⟩) := by
  refine ⟨?_, ?_, ?_, ?_⟩
  · intro d tbl h1 h2
    simp [progress_hook, h1, Nat.pos_of_ne_zero h2]
  · intro d tbl h1 h2
    simp [progress_hook, h1, h2]
  · intro d tbl h
    simp [progress_hook, h]
  · intro tbl
    constructor
    · norm_num [progress_hook, tick50, eff_total, tick_id, set_entry, round2, roundHE]
    · norm_num [progress_hook, tick100, eff_total, tick_id, set_entry, round2, roundHE]

/-- Witness for C5 at the first scenario tick against the empty table. -/
theorem progress_hook_updates_witness :
    tick50.status = "downloading" ∧ eff_total tick50 ≠ 0
    ∧ progress_hook tick50 empty_table = set_entry empty_table (tick_id tick50)
        ⟨round2 ((tick50.downloaded_bytes : ℚ) / (eff_total tick50 : ℚ) * 100),
         "downloading", some (tick50.speed.getD 0), some (tick50.eta.getD 0),
         none, none⟩ :=
  ⟨rfl, by decide, progress_hook_updates.1 tick50 empty_table rfl (by decide)⟩

/-- C6 counterexample: the claim's youtu.be rule does not hold for the
worker's error-path id extraction.  For `"https://youtu.be/ABC123"` the
claimed rule (modelled by `spec_worker_error_id`) yields `"ABC123"`, but
the code (`worker_error_id`, `main.py` line 213) yields `"unknown"`. -/
theorem worker_id_youtu_be_counterexample :
    worker_error_id "https://youtu.be/ABC123" = "unknown"
    ∧ spec_worker_error_id "https://youtu.be/ABC123" = "ABC123"
    ∧ ("unknown" : String) ≠ "ABC123" :=
  ⟨by decide, by decide, by decide⟩

/-- C6 amended: on any exception the worker keys the error entry by an
id derived solely from the `v=` rule, regardless of domain — the
substring after the last `"v="` up to the next `"&"` when `"v="` occurs
in the URL, and the sentinel `"unknown"` otherwise (so youtu.be URLs
without a `v=` parameter key the entry under `"unknown"`). -/
theorem worker_error_id_amended :
    (∀ url : String, strContains url "v=" = false →
      worker_error_id url = "unknown")
    ∧ (∀ pre post : String, strContains post "v=" = false →
      worker_error_id (pre ++ "v=" ++ post) =
        (beforeFirstChar '&' post.data).asString)
    ∧ (∀ (url raw : String) (tbl : Table),
      (handle_error url raw tbl) (worker_error_id url) =
        some ⟨0, "error", none, none, some (classify raw), some raw⟩) := by
  refine ⟨?_, ?_, ?_⟩
  · intro url h
    simp [worker_error_id, h]
  · intro pre post h
    have hdata : (pre ++ "v=" ++ post).data = pre.data ++ 'v' :: '=' :: post.data := by
      rw [str_data_append, str_data_append]
      simp
    have hb : listContainsSub ['v', '='] post.data = false := h
    have hcontains : strContains (pre ++ "v=" ++ post) "v=" = true := by
      rw [strContains, hdata]
      exact listContainsSub_append_vEq pre.data post.data
    rw [worker_error_id, if_pos hcontains, hdata, afterLastVEq_append pre.data post.data hb]
  · intro url raw tbl
    simp [handle_error, set_entry]

/-- Witness for C6 amended: a youtu.be URL keys under `"unknown"`, and a
watch URL with `v=` and a trailing `&t=7` keys under the id between. -/
theorem worker_error_id_amended_witness :
    strContains "https://youtu.be/ABC123" "v=" = false
    ∧ worker_error_id "https://youtu.be/ABC123" = "unknown"
    ∧ strContains "ABC123&t=7" "v=" = false
    ∧ worker_error_id ("https://www.youtube.com/watch?" ++ "v=" ++ "ABC123&t=7") =
        (beforeFirstChar '&' ("ABC123&t=7" : String).data).asString :=
  ⟨by decide, worker_error_id_amended.1 _ (by decide), by decide,
   worker_error_id_amended.2.1 "https://www.youtube.com/watch?" "ABC123&t=7" (by decide)⟩

/-- C7: for a URL containing neither `"youtube.com"` nor `"youtu.be"`,
both endpoints return a validation error and do no work — the
format-listing handler does not call the engine, and the download
handler enqueues no task and leaves the progress table unchanged. -/
theorem handlers_reject_bad_domain (url : String)
    (eng : String → Except String FormatsResult)
    (fid : Option String) (tbl : Table)
    (h1 : strContains url "youtube.com" = false)
    (h2 : strContains url "youtu.be" = false) :
    (get_formats eng url).response.status = "error"
    ∧ (get_formats eng url).engine_called = false
    ∧ (download url fid tbl).response.status = "error"
    ∧ (download url fid tbl).tasks = []
    ∧ (download url fid tbl).table = tbl := by
  have hinv : url_invalid url = true := by simp [url_invalid, h1, h2]
  simp [get_formats, download, hinv]

/-- Witness for C7 at a non-YouTube URL. -/
theorem handlers_reject_bad_domain_witness :
    strContains "https://example.com/watch?v=abc" "youtube.com" = false
    ∧ strContains "https://example.com/watch?v=abc" "youtu.be" = false
    ∧ (get_formats (fun _ => Except.error "boom") "https://example.com/watch?v=abc").engine_called = false
    ∧ (download "https://example.com/watch?v=abc" none empty_table).tasks = [] :=
  ⟨by decide, by decide,
   (handlers_reject_bad_domain "https://example.com/watch?v=abc"
     (fun _ => Except.error "boom") none empty_table (by decide) (by decide)).2.1,
   (handlers_reject_bad_domain "https://example.com/watch?v=abc"
     (fun _ => Except.error "boom") none empty_table (by decide) (by decide)).2.2.2.1⟩

/-- C10: a URL passing the domain check whose preliminary id extraction
yields the sentinel `"unknown"` makes the download handler return an
error, enqueue nothing, and write nothing to the progress table. -/
theorem download_unknown_id_rejected (url : String) (fid : Option String)
    (tbl : Table) (h1 : url_invalid url = false)
    (h2 : extract_request_id url = "unknown") :
    (download url fid tbl).response.status = "error"
    ∧ (download url fid tbl).tasks = []
    ∧ (download url fid tbl).table = tbl := by
  simp [download, h1, h2]

/-- Witness for C10 at a youtube.com URL with no `v=` parameter. -/
theorem download_unknown_id_rejected_witness :
    url_invalid "https://www.youtube.com/feed" = false
    ∧ extract_request_id "https://www.youtube.com/feed" = "unknown"
    ∧ (download "https://www.youtube.com/feed" none empty_table).response.status = "error"
    ∧ (download "https://www.youtube.com/feed" none empty_table).tasks = [] :=
  ⟨by decide, by decide,
   (download_unknown_id_rejected "https://www.youtube.com/feed" none empty_table
     (by decide) (by decide)).1,
   (download_unknown_id_rejected "https://www.youtube.com/feed" none empty_table
     (by decide) (by decide)).2.1⟩

end YoutubeApp
